import Mathlib

/-!
Verification development for the batch research orchestration engine of the
Syntellix AI spreadsheet-enrichment application.

The definitions below are a shallow embedding of the TypeScript source:
  * src/types.ts           — the data model (rows, configs, results, statuses)
  * src/App.tsx            — handleStartResearch / handlePause / handleResume /
                             handleCancel (the orchestration loop and run control)
  * the Gemini service     — researchEntity (the research task invoker)

A JavaScript object row is embedded as an association list of
(column name, value) pairs in insertion order; property lookup on a possibly
missing key becomes an Option-valued lookup.  Asynchronous control flow is
embedded by delivering lists of user control events (pause / resume / cancel)
at each of the loop's suspension points: the batch await, the pause wait, and
the inter-batch sleep.  The external AI call is a parameter (an oracle
function from its four arguments to a result).  The per-cell provenance map
(cellSources) is the one piece of run state not modelled here: no property
below concerns it, and its updates touch no other state.
-/

namespace Syntellix

/-- A CSV row: ordered mapping from column name to string value
(src/types.ts, CsvRow). -/
abbrev Row : Type := List (String × String)

/-- The JavaScript String.prototype.trim: drop leading and trailing
whitespace.  Embedded structurally over the character list so that it
reduces inside the kernel (Lean's own String.trim is defined by
well-founded recursion on byte positions and does not). -/
def jsTrim (s : String) : String :=
  String.mk
    (((s.data.dropWhile Char.isWhitespace).reverse.dropWhile
        Char.isWhitespace).reverse)

/-- Property read row[k]: value of the first pair whose key is k, none if the
key is absent (JavaScript property access on a plain object). -/
def rowGet : Row → String → Option String
  | [], _ => none
  | p :: rest, k => if p.1 = k then some p.2 else rowGet rest k

/-- The spread update { ...row, [k]: v }: replaces the value in place when the
key exists (keeping key order), otherwise appends the new key at the end. -/
def setCell (row : Row) (k v : String) : Row :=
  if (rowGet row k).isSome then
    row.map (fun p => if p.1 = k then (k, v) else p)
  else
    row ++ [(k, v)]

/-- Run status enumeration (src/types.ts, ProcessingStatus). -/
inductive ProcessingStatus
  | IDLE
  | PROCESSING
  | PAUSED
  | COMPLETED
deriving DecidableEq, Repr

/-- A research task (src/types.ts, ResearchTask). -/
structure ResearchTask where
  id : String
  newColumnName : String
  prompt : String
deriving DecidableEq, Repr

/-- A research configuration (src/types.ts, ResearchConfig).  rowLimit is an
optional row cap; the JavaScript `rowLimit && rowLimit > 0` guard is modelled
on the Option. -/
structure ResearchConfig where
  targetColumns : List String
  tasks : List ResearchTask
  useThinkingModel : Bool
  rowLimit : Option Nat
deriving DecidableEq, Repr

/-- A citation source (src/types.ts, Source). -/
structure Source where
  title : String
  uri : String
deriving DecidableEq, Repr

/-- The result of one research invocation (src/types.ts, ResearchResult). -/
structure ResearchResult where
  text : String
  sources : List Source
deriving DecidableEq, Repr

/-- Entity Resolver, subject part (src/App.tsx lines 162-166):
config.targetColumns mapped over the row, values kept when truthy with a
non-empty trim, joined with a single space.  Note the kept values are joined
untrimmed. -/
def entityName (row : Row) (targetColumns : List String) : String :=
  String.intercalate " "
    ((targetColumns.filterMap (fun c => rowGet row c)).filter
      (fun v => v != "" && jsTrim v != ""))

/-- Entity Resolver, context part, the per-column fragments
(src/App.tsx lines 170-172): every entry of the row whose key is neither a
target column nor a task output column, rendered as "key: value". -/
def contextParts (row : Row) (targetColumns : List String)
    (tasks : List ResearchTask) : List String :=
  (row.filter (fun p =>
      !(targetColumns.contains p.1)
        && !(tasks.any (fun t => t.newColumnName == p.1)))).map
    (fun p => p.1 ++ ": " ++ p.2)

/-- Entity Resolver, context string (src/App.tsx line 173): the fragments
joined with a comma and a space. -/
def contextStr (row : Row) (targetColumns : List String)
    (tasks : List ResearchTask) : String :=
  String.intercalate ", " (contextParts row targetColumns tasks)

/-- Batch Planner, concurrency budget (src/App.tsx line 135). -/
def concurrentLimit (useThinkingModel : Bool) : Nat :=
  if useThinkingModel then 2 else 10

/-- Batch Planner, batch size (src/App.tsx line 136):
max(1, floor(concurrentLimit / tasksPerItem)). -/
def batchSize (tasksPerItem : Nat) (useThinkingModel : Bool) : Nat :=
  max 1 (concurrentLimit useThinkingModel / tasksPerItem)

/-- Batch Planner, row-limit resolution (src/App.tsx line 130):
rowLimit when set and positive, otherwise the table length. -/
def planLimit (dataLen : Nat) (rowLimit : Option Nat) : Nat :=
  match rowLimit with
  | some l => if 0 < l then l else dataLen
  | none => dataLen

/-- Batch Planner, effective row count (src/App.tsx line 131):
min(table length, resolved limit). -/
def effectiveRowCount (dataLen : Nat) (rowLimit : Option Nat) : Nat :=
  min dataLen (planLimit dataLen rowLimit)

/-- Outcome of the external AI provider call, as seen through the try block
of researchEntity: either the generateContent call raised (failure), or it
returned a response whose text field may be absent and whose grounding
chunks each optionally carry web info. -/
structure WebInfo where
  title : Option String
  uri : Option String
deriving DecidableEq, Repr

/-- One grounding chunk of the provider response. -/
structure GroundingChunk where
  web : Option WebInfo
deriving DecidableEq, Repr

/-- Provider behaviour for a single call. -/
inductive ProviderOutcome
  | failure
  | success (text : Option String) (chunks : List GroundingChunk)
deriving DecidableEq, Repr

/-- The Research Task Invoker (Gemini service, researchEntity).  The apiKey
and the provider behaviour are explicit parameters; an Except models the
JavaScript throw.  Mirrors the source exactly: a missing key throws before
the try block; inside the try, a provider failure is caught and normalized
to the Error sentinel; a missing or empty response text becomes "N/A",
otherwise the trimmed text is returned together with the extracted web
sources. -/
def researchEntity (apiKey : String) (provider : ProviderOutcome)
    (entityName userQuery context : String) (useThinkingModel : Bool) :
    Except String ResearchResult :=
  if apiKey = "" then
    Except.error "API Key is missing. Please configure process.env.API_KEY."
  else
    match provider with
    | ProviderOutcome.failure => Except.ok { text := "Error", sources := [] }
    | ProviderOutcome.success t chunks =>
        let text := match t with
          | none => "N/A"
          | some s => if s = "" then "N/A" else jsTrim s
        let sources := chunks.filterMap (fun c =>
          c.web.map (fun w =>
            { title := w.title.getD "Source", uri := w.uri.getD "" }))
        Except.ok { text := text, sources := sources }

/-- A user control action on the run, issued through the control surface
(src/App.tsx: handlePause, handleResume, handleCancel). -/
inductive Event
  | pause
  | resume
  | cancel
deriving DecidableEq, Repr

/-- Events delivered at each of the three suspension points of one loop
iteration: while suspended waiting for resume, while the batch is in
flight (awaiting Promise.all), and during the inter-batch sleep.  In the
single-threaded JavaScript runtime the handlers can only run while the
loop is suspended, so this is a complete account of the interleavings. -/
structure IterSched where
  pauseEvents : List Event
  batchEvents : List Event
  sleepEvents : List Event
deriving Repr

/-- The mutable state the run touches: the working table copy (newData), the
column list, the status, the processed counter, the three control refs, and
an instrumentation trace of the (rowIndex, taskIndex) tags of every
invocation fired. -/
structure RunState where
  data : List Row
  columns : List String
  status : ProcessingStatus
  processedCount : Nat
  isPaused : Bool
  isCancelled : Bool
  resumePending : Bool
  invocations : List (Nat × Nat)
deriving DecidableEq, Repr

/-- Effect of one control handler on the state (src/App.tsx lines 72-106).
pause sets the paused flag and status PAUSED; resume clears the paused flag,
sets status PROCESSING and releases a stored resume continuation; cancel
sets the cancelled flag, clears the paused flag, sets status IDLE and
releases a stored resume continuation. -/
def applyEvent (s : RunState) : Event → RunState
  | Event.pause => { s with isPaused := true, status := ProcessingStatus.PAUSED }
  | Event.resume =>
      { s with isPaused := false, status := ProcessingStatus.PROCESSING,
               resumePending := false }
  | Event.cancel =>
      { s with isCancelled := true, isPaused := false,
               status := ProcessingStatus.IDLE, resumePending := false }

/-- Deliver a list of control events in order. -/
def applyEvents (es : List Event) (s : RunState) : RunState :=
  es.foldl applyEvent s

/-- The type of the external research call as the loop consumes it:
(subject, prompt, context string, thinking flag) to a settled result.  The
invoker's own failure normalization (the Error / N-A sentinels) means every
invocation settles with a ResearchResult. -/
abbrev Invoke : Type := String → String → String → Bool → ResearchResult

/-- The invocations fired for one row of a batch (src/App.tsx lines
159-190): nothing when the resolved subject is empty, otherwise one tagged
invocation per task, in task order. -/
def rowInvocations (invoke : Invoke) (targetColumns : List String)
    (tasks : List ResearchTask) (useThinkingModel : Bool) (j : Nat)
    (row : Row) : List (Nat × Nat × ResearchResult) :=
  let ename := entityName row targetColumns
  if ename = "" then []
  else
    let ctx := contextStr row targetColumns tasks
    tasks.enum.map (fun p =>
      (j, p.1, invoke ename p.2.prompt ctx useThinkingModel))

/-- All invocations of the batch covering row indices [i, batchEnd). -/
def batchResults (invoke : Invoke) (targetColumns : List String)
    (tasks : List ResearchTask) (useThinkingModel : Bool)
    (data : List Row) (i batchEnd : Nat) : List (Nat × Nat × ResearchResult) :=
  (List.range' i (batchEnd - i)).flatMap (fun j =>
    rowInvocations invoke targetColumns tasks useThinkingModel j
      (data.getD j []))

/-- Row j of the working table (newData[j]). -/
def nthRow (data : List Row) (j : Nat) : Row :=
  data.getD j []

/-- Merge one settled result into the table (src/App.tsx lines 200-207):
write result.text into the row's cell for the task's output column. -/
def applyResult (tasks : List ResearchTask) (data : List Row)
    (r : Nat × Nat × ResearchResult) : List Row :=
  match tasks[r.2.1]? with
  | some task => data.set r.1 (setCell (nthRow data r.1) task.newColumnName r.2.2.text)
  | none => data

/-- Merge all of a batch's settled results, in completion order. -/
def mergeResults (tasks : List ResearchTask) (data : List Row)
    (results : List (Nat × Nat × ResearchResult)) : List Row :=
  results.foldl (applyResult tasks) data

/-- The cell a result would write: (row index, output column name). -/
def wkey (tasks : List ResearchTask) (r : Nat × Nat × ResearchResult) :
    Option (Nat × String) :=
  (tasks[r.2.1]?).map (fun t => (r.1, t.newColumnName))

/-- The fixed context of one run: the invoker, the configuration fields the
loop reads, the planned sizes, and the event schedule. -/
structure LoopCtx where
  invoke : Invoke
  targetColumns : List String
  tasks : List ResearchTask
  useThinkingModel : Bool
  effectiveTotal : Nat
  BATCH : Nat
  sched : Nat → IterSched

/-- One iteration body after the control checks (src/App.tsx lines 154-226):
fire the batch's invocations, await them (during which control events may be
delivered) when there is at least one, merge the results, advance the
progress counter to the batch end, and sleep between batches (another
delivery point) unless this was the final batch. -/
def doBatch (ctx : LoopCtx) (sch : IterSched) (i : Nat) (s : RunState) :
    RunState :=
  let batchEnd := min (i + ctx.BATCH) ctx.effectiveTotal
  let results := batchResults ctx.invoke ctx.targetColumns ctx.tasks
    ctx.useThinkingModel s.data i batchEnd
  let s1 : RunState :=
    { s with invocations := s.invocations ++ results.map (fun r => (r.1, r.2.1)) }
  let s2 : RunState :=
    if results.isEmpty then s1
    else
      let sw := applyEvents sch.batchEvents s1
      { sw with data := mergeResults ctx.tasks sw.data results }
  let s3 : RunState := { s2 with processedCount := batchEnd }
  if batchEnd < ctx.effectiveTotal then applyEvents sch.sleepEvents s3 else s3

/-- How a run ends: the loop returned (finished), the loop is suspended at a
pause wait that nothing ever releases (hung), or the step budget of the
embedding ran out (outOfFuel; never reached from startResearch, which
supplies one fuel unit per effective row plus one). -/
inductive RunOutcome
  | finished (s : RunState)
  | hung (s : RunState)
  | outOfFuel (s : RunState)
deriving DecidableEq, Repr

/-- The state carried by an outcome. -/
def stateOf : RunOutcome → RunState
  | RunOutcome.finished s => s
  | RunOutcome.hung s => s
  | RunOutcome.outOfFuel s => s

/-- The pause wait (src/App.tsx lines 146-147, waitForResume): store a
resume continuation, then suspend; the schedule's pause events are delivered
while suspended. -/
def waitResume (sch : IterSched) (s : RunState) : RunState :=
  applyEvents sch.pauseEvents { s with resumePending := true }

/-- The orchestration loop (src/App.tsx lines 139-229).  Each iteration:
if cancelled, return leaving the state untouched; if paused, store a resume
continuation and suspend (control events are delivered there; if none of
them releases the continuation the run hangs), then return if cancelled
while suspended; otherwise run the batch body and advance i by the batch
size.  When i reaches the effective total the loop falls through and sets
status COMPLETED. -/
def runLoop (ctx : LoopCtx) : Nat → Nat → Nat → RunState → RunOutcome
  | 0, _, _, s => RunOutcome.outOfFuel s
  | fuel + 1, iter, i, s =>
    if i < ctx.effectiveTotal then
      if s.isCancelled then RunOutcome.finished s
      else if s.isPaused then
        let sw := waitResume (ctx.sched iter) s
        if sw.resumePending then RunOutcome.hung sw
        else if sw.isCancelled then RunOutcome.finished sw
        else runLoop ctx fuel (iter + 1) (i + ctx.BATCH)
          (doBatch ctx (ctx.sched iter) i sw)
      else runLoop ctx fuel (iter + 1) (i + ctx.BATCH)
        (doBatch ctx (ctx.sched iter) i s)
    else RunOutcome.finished { s with status := ProcessingStatus.COMPLETED }

/-- Outcome of pressing start (src/App.tsx, handleStartResearch): noop when
the early return fires, otherwise the run's outcome. -/
inductive StartOutcome
  | noop
  | ran (out : RunOutcome)
deriving Repr

/-- handleStartResearch (src/App.tsx lines 108-230).  The only guard is the
empty-table early return; the current status is accepted as an argument and
— exactly as in the source — never consulted.  Otherwise: reset the three
control refs, set status PROCESSING, reset the counter, append missing task
output columns to the column list, plan the effective total and batch size,
and run the loop from row 0. -/
def startResearch (data : List Row) (columns : List String)
    (status : ProcessingStatus) (cfg : ResearchConfig) (invoke : Invoke)
    (sched : Nat → IterSched) : StartOutcome :=
  if data.length = 0 then StartOutcome.noop
  else
    let newColumnsToAdd := (cfg.tasks.map (fun t => t.newColumnName)).filter
      (fun n => !(columns.contains n))
    let eff := effectiveRowCount data.length cfg.rowLimit
    let ctx : LoopCtx :=
      { invoke := invoke, targetColumns := cfg.targetColumns,
        tasks := cfg.tasks, useThinkingModel := cfg.useThinkingModel,
        effectiveTotal := eff,
        BATCH := batchSize cfg.tasks.length cfg.useThinkingModel,
        sched := sched }
    StartOutcome.ran (runLoop ctx (eff + 1) 0 0
      { data := data, columns := columns ++ newColumnsToAdd,
        status := ProcessingStatus.PROCESSING, processedCount := 0,
        isPaused := false, isCancelled := false, resumePending := false,
        invocations := [] })

/-- The final run state reached by a start, when the run actually ran. -/
def ranState : StartOutcome → Option RunState
  | StartOutcome.noop => none
  | StartOutcome.ran out => some (stateOf out)

/-- The control view of a run state: every field except the table itself. -/
def ctl (s : RunState) :
    ProcessingStatus × Nat × Bool × Bool × Bool × List (Nat × Nat) × List String :=
  (s.status, s.processedCount, s.isPaused, s.isCancelled, s.resumePending,
    s.invocations, s.columns)

/-- The control view of an outcome: the outcome kind and the control view of
its state. -/
def control : RunOutcome → Nat × (ProcessingStatus × Nat × Bool × Bool × Bool × List (Nat × Nat) × List String)
  | RunOutcome.finished s => (0, ctl s)
  | RunOutcome.hung s => (1, ctl s)
  | RunOutcome.outOfFuel s => (2, ctl s)

/-- All target-column values of a row are absent, empty or whitespace. -/
def targetsBlank (row : Row) (targetColumns : List String) : Bool :=
  targetColumns.all (fun c => jsTrim ((rowGet row c).getD "") == "")

/-- Resolution of the subject exactly as claim C1's spec sentence words it:
each value trimmed first, empty values then filtered out, the remainder
joined with a single space. -/
def subjectSpecTrimmed (row : Row) (targetColumns : List String) : String :=
  String.intercalate " "
    (((targetColumns.filterMap (fun c => rowGet row c)).map jsTrim).filter
      (fun v => v != ""))

/-- The amended subject resolution: values kept when their trimmed form is
non-empty (missing values contribute nothing), the surviving raw values
joined with a single space. -/
def subjectResolved (row : Row) (targetColumns : List String) : String :=
  String.intercalate " "
    (targetColumns.filterMap (fun c =>
      match rowGet row c with
      | none => none
      | some v => if jsTrim v = "" then none else some v))

/-! Concrete sample inputs used by the counterexamples and witnesses. -/

/-- A stub invoker whose every call settles with the text X. -/
def sampleInvoke : Invoke := fun _ _ _ _ => { text := "X", sources := [] }

/-- A schedule that delivers no control events at all. -/
def schedQuiet : Nat → IterSched :=
  fun _ => { pauseEvents := [], batchEvents := [], sleepEvents := [] }

/-- A schedule that delivers cancel while each batch is in flight. -/
def schedCancelInBatch : Nat → IterSched :=
  fun _ => { pauseEvents := [], batchEvents := [Event.cancel],
             sleepEvents := [] }

/-- A one-task configuration over the Name column, no row limit. -/
def cfgOneTask : ResearchConfig :=
  { targetColumns := ["Name"],
    tasks := [{ id := "1", newColumnName := "Info", prompt := "p" }],
    useThinkingModel := false, rowLimit := none }

/-- The same configuration with the row limit set to one. -/
def cfgLimitOne : ResearchConfig :=
  { targetColumns := ["Name"],
    tasks := [{ id := "1", newColumnName := "Info", prompt := "p" }],
    useThinkingModel := false, rowLimit := some 1 }

/-- Replace the table of a state, keeping every other field. -/
def resData (s : RunState) (d : List Row) : RunState :=
  { s with data := d }

/-- The four control flags of a state. -/
def flags (s : RunState) : ProcessingStatus × Bool × Bool × Bool :=
  (s.status, s.isPaused, s.isCancelled, s.resumePending)

/-- The effect of one control event on the flags, as a pure function. -/
def stepFlag : ProcessingStatus × Bool × Bool × Bool → Event →
    ProcessingStatus × Bool × Bool × Bool
  | (_, _, c, r), Event.pause => (ProcessingStatus.PAUSED, true, c, r)
  | (_, _, c, _), Event.resume => (ProcessingStatus.PROCESSING, false, c, false)
  | _, Event.cancel => (ProcessingStatus.IDLE, false, true, false)

/-- An outcome with its state's table replaced. -/
def mapOutcomeData : RunOutcome → List Row → RunOutcome
  | RunOutcome.finished s, d => RunOutcome.finished (resData s d)
  | RunOutcome.hung s, d => RunOutcome.hung (resData s d)
  | RunOutcome.outOfFuel s, d => RunOutcome.outOfFuel (resData s d)


/-! ### Helper lemmas: rows and cells -/

theorem rowGet_map_replace (row : Row) (k v : String) :
    rowGet (row.map (fun p => if p.1 = k then (k, v) else p)) k =
      if (rowGet row k).isSome then some v else none := by
  induction row with
  | nil => simp [rowGet]
  | cons p rest ih =>
    by_cases h : p.1 = k
    · simp [rowGet, h]
    · simp [rowGet, h, ih]

theorem rowGet_map_replace_ne (row : Row) (k q v : String) (h : q ≠ k) :
    rowGet (row.map (fun p => if p.1 = k then (k, v) else p)) q =
      rowGet row q := by
  induction row with
  | nil => simp [rowGet]
  | cons p rest ih =>
    by_cases hp : p.1 = k
    · simp [rowGet, hp, Ne.symm h, ih]
    · simp [rowGet, hp, ih]

theorem rowGet_append (l₁ l₂ : Row) (k : String) :
    rowGet (l₁ ++ l₂) k =
      match rowGet l₁ k with
      | some v => some v
      | none => rowGet l₂ k := by
  induction l₁ with
  | nil => simp [rowGet]
  | cons p rest ih =>
    by_cases h : p.1 = k
    · simp [rowGet, h]
    · simp [rowGet, h, ih]

theorem rowGet_setCell_same (row : Row) (k v : String) :
    rowGet (setCell row k v) k = some v := by
  unfold setCell
  by_cases h : (rowGet row k).isSome
  · simp [h, rowGet_map_replace]
  · simp [h, rowGet_append]
    cases hx : rowGet row k with
    | none => simp [rowGet]
    | some w => simp [hx] at h

theorem rowGet_setCell_ne (row : Row) (k q v : String) (h : q ≠ k) :
    rowGet (setCell row k v) q = rowGet row q := by
  unfold setCell
  by_cases hs : (rowGet row k).isSome
  · simp [hs, rowGet_map_replace_ne row k q v h]
  · simp [hs, rowGet_append]
    cases hx : rowGet row q with
    | none => simp [rowGet, h, Ne.symm h]
    | some w => simp

/-! ### Helper lemmas: indexed access into the table -/

theorem nthRow_set_ne (l : List Row) (n j : Nat) (a : Row) (h : n ≠ j) :
    nthRow (l.set n a) j = nthRow l j := by
  induction l generalizing n j with
  | nil => simp [nthRow]
  | cons b t ih =>
    cases n with
    | zero =>
      cases j with
      | zero => exact absurd rfl h
      | succ j => simp [nthRow, List.getD]
    | succ n =>
      cases j with
      | zero => simp [nthRow, List.getD]
      | succ j =>
        have : n ≠ j := by omega
        simpa [nthRow, List.getD] using ih n j this

theorem nthRow_set_self (l : List Row) (j : Nat) (a : Row)
    (h : j < l.length) :
    nthRow (l.set j a) j = a := by
  induction l generalizing j with
  | nil => simp at h
  | cons b t ih =>
    cases j with
    | zero => simp [nthRow, List.getD]
    | succ j =>
      simp at h
      simpa [nthRow, List.getD] using ih j (by omega)

/-! ### Helper lemmas: control events touch only control fields -/

theorem applyEvent_data (s : RunState) (e : Event) :
    (applyEvent s e).data = s.data := by
  cases e <;> rfl

theorem applyEvent_columns (s : RunState) (e : Event) :
    (applyEvent s e).columns = s.columns := by
  cases e <;> rfl

theorem applyEvent_processedCount (s : RunState) (e : Event) :
    (applyEvent s e).processedCount = s.processedCount := by
  cases e <;> rfl

theorem applyEvent_invocations (s : RunState) (e : Event) :
    (applyEvent s e).invocations = s.invocations := by
  cases e <;> rfl

theorem applyEvents_data (es : List Event) (s : RunState) :
    (applyEvents es s).data = s.data := by
  induction es generalizing s with
  | nil => rfl
  | cons e es ih => simp [applyEvents, List.foldl] at ih ⊢; rw [ih, applyEvent_data]

theorem applyEvents_columns (es : List Event) (s : RunState) :
    (applyEvents es s).columns = s.columns := by
  induction es generalizing s with
  | nil => rfl
  | cons e es ih => simp [applyEvents, List.foldl] at ih ⊢; rw [ih, applyEvent_columns]

theorem applyEvents_processedCount (es : List Event) (s : RunState) :
    (applyEvents es s).processedCount = s.processedCount := by
  induction es generalizing s with
  | nil => rfl
  | cons e es ih =>
    simp [applyEvents, List.foldl] at ih ⊢; rw [ih, applyEvent_processedCount]

theorem applyEvents_invocations (es : List Event) (s : RunState) :
    (applyEvents es s).invocations = s.invocations := by
  induction es generalizing s with
  | nil => rfl
  | cons e es ih =>
    simp [applyEvents, List.foldl] at ih ⊢; rw [ih, applyEvent_invocations]

/-- The effect of one event on the control view is a function of the control
view alone. -/
theorem applyEvent_ctl_congr (s t : RunState) (e : Event)
    (h : ctl s = ctl t) : ctl (applyEvent s e) = ctl (applyEvent t e) := by
  simp [ctl] at h
  obtain ⟨h1, h2, h3, h4, h5, h6, h7⟩ := h
  cases e <;> simp [applyEvent, ctl, h1, h2, h3, h4, h5, h6, h7]

theorem applyEvents_ctl_congr (es : List Event) (s t : RunState)
    (h : ctl s = ctl t) :
    ctl (applyEvents es s) = ctl (applyEvents es t) := by
  induction es generalizing s t with
  | nil => exact h
  | cons e es ih =>
    simp only [applyEvents, List.foldl] at ih ⊢
    exact ih _ _ (applyEvent_ctl_congr s t e h)

theorem waitResume_data (sch : IterSched) (s : RunState) :
    (waitResume sch s).data = s.data := by
  unfold waitResume; rw [applyEvents_data]

theorem waitResume_invocations (sch : IterSched) (s : RunState) :
    (waitResume sch s).invocations = s.invocations := by
  unfold waitResume; rw [applyEvents_invocations]

theorem waitResume_columns (sch : IterSched) (s : RunState) :
    (waitResume sch s).columns = s.columns := by
  unfold waitResume; rw [applyEvents_columns]

theorem waitResume_processedCount (sch : IterSched) (s : RunState) :
    (waitResume sch s).processedCount = s.processedCount := by
  unfold waitResume; rw [applyEvents_processedCount]

/-- The final cancel of an event list leaves a definite control state. -/
theorem applyEvents_cancel_last (es : List Event) (s : RunState) :
    (applyEvents (es ++ [Event.cancel]) s).isCancelled = true ∧
    (applyEvents (es ++ [Event.cancel]) s).isPaused = false ∧
    (applyEvents (es ++ [Event.cancel]) s).status = ProcessingStatus.IDLE ∧
    (applyEvents (es ++ [Event.cancel]) s).resumePending = false := by
  have h : applyEvents (es ++ [Event.cancel]) s =
      applyEvent (applyEvents es s) Event.cancel := by
    simp [applyEvents, List.foldl_append]
  rw [h]
  simp [applyEvent]

/-! ### Helper lemmas: batch structure -/

theorem rowInvocations_mem_fst (invoke : Invoke) (tcols : List String)
    (tasks : List ResearchTask) (u : Bool) (j : Nat) (row : Row)
    (r : Nat × Nat × ResearchResult)
    (hr : r ∈ rowInvocations invoke tcols tasks u j row) : r.1 = j := by
  unfold rowInvocations at hr
  by_cases he : entityName row tcols = ""
  · simp [he] at hr
  · simp only [he, if_neg, List.mem_map, not_false_iff] at hr
    obtain ⟨p, _, hp⟩ := hr
    rw [← hp]

theorem batchResults_mem_bounds (invoke : Invoke) (tcols : List String)
    (tasks : List ResearchTask) (u : Bool) (data : List Row) (i be : Nat)
    (r : Nat × Nat × ResearchResult)
    (hr : r ∈ batchResults invoke tcols tasks u data i be) :
    i ≤ r.1 ∧ r.1 < be := by
  unfold batchResults at hr
  rw [List.mem_flatMap] at hr
  obtain ⟨j, hj, hrj⟩ := hr
  rw [List.mem_range'_1] at hj
  have hfst := rowInvocations_mem_fst invoke tcols tasks u j (data.getD j []) r hrj
  omega

/-- Merging results that never target row j leaves row j unchanged. -/
theorem mergeResults_frame (tasks : List ResearchTask)
    (results : List (Nat × Nat × ResearchResult)) (data : List Row) (j : Nat)
    (h : ∀ r ∈ results, r.1 ≠ j) :
    nthRow (mergeResults tasks data results) j = nthRow data j := by
  induction results generalizing data with
  | nil => rfl
  | cons r rest ih =>
    have hr : r.1 ≠ j := h r (List.mem_cons_self r rest)
    have hstep : nthRow (applyResult tasks data r) j = nthRow data j := by
      unfold applyResult
      cases tasks[r.2.1]? with
      | none => rfl
      | some task => simp [nthRow_set_ne _ _ _ _ hr]
    calc nthRow (mergeResults tasks (applyResult tasks data r) rest) j
        = nthRow (applyResult tasks data r) j :=
          ih (applyResult tasks data r) (fun q hq => h q (List.mem_cons_of_mem r hq))
      _ = nthRow data j := hstep

/-- Merging preserves the number of rows. -/
theorem mergeResults_length (tasks : List ResearchTask)
    (results : List (Nat × Nat × ResearchResult)) (data : List Row) :
    (mergeResults tasks data results).length = data.length := by
  induction results generalizing data with
  | nil => rfl
  | cons r rest ih =>
    have hstep : (applyResult tasks data r).length = data.length := by
      unfold applyResult
      cases tasks[r.2.1]? with
      | none => rfl
      | some task => simp
    calc (mergeResults tasks (applyResult tasks data r) rest).length
        = (applyResult tasks data r).length := ih (applyResult tasks data r)
      _ = data.length := hstep

/-- Merging results none of which writes the cell (j, colName) preserves that
cell. -/
theorem mergeResults_cell_frame (tasks : List ResearchTask)
    (results : List (Nat × Nat × ResearchResult)) (data : List Row)
    (j : Nat) (colName : String)
    (h : ∀ r ∈ results, wkey tasks r ≠ some (j, colName)) :
    rowGet (nthRow (mergeResults tasks data results) j) colName =
      rowGet (nthRow data j) colName := by
  induction results generalizing data with
  | nil => rfl
  | cons r rest ih =>
    have hr : wkey tasks r ≠ some (j, colName) :=
      h r (List.mem_cons_self r rest)
    have hstep : rowGet (nthRow (applyResult tasks data r) j) colName =
        rowGet (nthRow data j) colName := by
      unfold applyResult
      cases htask : tasks[r.2.1]? with
      | none => rfl
      | some task =>
        by_cases hj : r.1 = j
        · have hname : task.newColumnName ≠ colName := by
            intro hc
            apply hr
            simp [wkey, htask, hj, hc]
          by_cases hlen : r.1 < data.length
          · subst hj
            simp only [nthRow_set_self data r.1 _ hlen]
            exact rowGet_setCell_ne _ _ _ _ (Ne.symm hname)
          · have : data.set r.1 (setCell (nthRow data r.1) task.newColumnName r.2.2.text) = data := by
              apply List.set_eq_of_length_le
              omega
            simp [this]
        · simp [nthRow_set_ne _ _ _ _ hj]
    calc rowGet (nthRow (mergeResults tasks (applyResult tasks data r) rest) j) colName
        = rowGet (nthRow (applyResult tasks data r) j) colName :=
          ih (applyResult tasks data r) (fun q hq => h q (List.mem_cons_of_mem r hq))
      _ = rowGet (nthRow data j) colName := hstep

/-- Every merged result whose write cell no other result writes ends up
written: the final table holds its text at its cell. -/
theorem mergeResults_writes (tasks : List ResearchTask)
    (results : List (Nat × Nat × ResearchResult)) (data : List Row)
    (j t : Nat) (res : ResearchResult) (task : ResearchTask)
    (hmem : (j, t, res) ∈ results) (htask : tasks[t]? = some task)
    (hlen : j < data.length)
    (hsolo : ∀ r ∈ results, r ≠ (j, t, res) →
      wkey tasks r ≠ some (j, task.newColumnName)) :
    rowGet (nthRow (mergeResults tasks data results) j) task.newColumnName =
      some res.text := by
  revert hmem hsolo
  induction results generalizing data with
  | nil => intro hmem _; simp at hmem
  | cons r rest ih =>
    intro hmem hsolo
    by_cases hrest : (j, t, res) ∈ rest
    · have hlen2 : j < (applyResult tasks data r).length := by
        unfold applyResult
        cases tasks[r.2.1]? with
        | none => exact hlen
        | some task2 => simpa using hlen
      exact ih (applyResult tasks data r) hlen2 hrest
        (fun q hq => hsolo q (List.mem_cons_of_mem r hq))
    · have hr : r = (j, t, res) := by
        rcases List.mem_cons.mp hmem with h | h
        · exact h.symm
        · exact absurd h hrest
      subst hr
      have hstep : rowGet (nthRow (applyResult tasks data (j, t, res)) j)
          task.newColumnName = some res.text := by
        unfold applyResult
        simp only [htask]
        simp only [nthRow_set_self data j _ hlen]
        exact rowGet_setCell_same _ _ _
      rw [show mergeResults tasks data ((j, t, res) :: rest) =
          mergeResults tasks (applyResult tasks data (j, t, res)) rest from rfl]
      rw [mergeResults_cell_frame tasks rest _ j task.newColumnName
        (fun q hq => hsolo q (List.mem_cons_of_mem _ hq)
          (fun hc => hrest (hc ▸ hq)))]
      exact hstep

/-! ### Helper lemmas: the batch body, field by field -/

theorem doBatch_data (ctx : LoopCtx) (sch : IterSched) (i : Nat)
    (s : RunState) :
    (doBatch ctx sch i s).data =
      if (batchResults ctx.invoke ctx.targetColumns ctx.tasks
            ctx.useThinkingModel s.data i
            (min (i + ctx.BATCH) ctx.effectiveTotal)).isEmpty
      then s.data
      else mergeResults ctx.tasks s.data
        (batchResults ctx.invoke ctx.targetColumns ctx.tasks
          ctx.useThinkingModel s.data i
          (min (i + ctx.BATCH) ctx.effectiveTotal)) := by
  by_cases h1 : (batchResults ctx.invoke ctx.targetColumns ctx.tasks
      ctx.useThinkingModel s.data i
      (min (i + ctx.BATCH) ctx.effectiveTotal)).isEmpty <;>
  by_cases h2 : min (i + ctx.BATCH) ctx.effectiveTotal < ctx.effectiveTotal <;>
  simp [doBatch, h1, h2, applyEvents_data]

theorem doBatch_invocations (ctx : LoopCtx) (sch : IterSched) (i : Nat)
    (s : RunState) :
    (doBatch ctx sch i s).invocations =
      s.invocations ++
        (batchResults ctx.invoke ctx.targetColumns ctx.tasks
          ctx.useThinkingModel s.data i
          (min (i + ctx.BATCH) ctx.effectiveTotal)).map
          (fun r => (r.1, r.2.1)) := by
  by_cases h1 : (batchResults ctx.invoke ctx.targetColumns ctx.tasks
      ctx.useThinkingModel s.data i
      (min (i + ctx.BATCH) ctx.effectiveTotal)).isEmpty
  · have h1' := List.isEmpty_iff.mp h1
    by_cases h2 : min (i + ctx.BATCH) ctx.effectiveTotal < ctx.effectiveTotal <;>
    simp [doBatch, h1, h1', h2, applyEvents_invocations]
  · by_cases h2 : min (i + ctx.BATCH) ctx.effectiveTotal < ctx.effectiveTotal <;>
    simp [doBatch, h1, h2, applyEvents_invocations]

theorem doBatch_columns (ctx : LoopCtx) (sch : IterSched) (i : Nat)
    (s : RunState) :
    (doBatch ctx sch i s).columns = s.columns := by
  by_cases h1 : (batchResults ctx.invoke ctx.targetColumns ctx.tasks
      ctx.useThinkingModel s.data i
      (min (i + ctx.BATCH) ctx.effectiveTotal)).isEmpty <;>
  by_cases h2 : min (i + ctx.BATCH) ctx.effectiveTotal < ctx.effectiveTotal <;>
  simp [doBatch, h1, h2, applyEvents_columns]

theorem doBatch_data_frame (ctx : LoopCtx) (sch : IterSched) (i : Nat)
    (s : RunState) (j : Nat)
    (h : j < i ∨ min (i + ctx.BATCH) ctx.effectiveTotal ≤ j) :
    nthRow (doBatch ctx sch i s).data j = nthRow s.data j := by
  rw [doBatch_data]
  split
  · rfl
  · apply mergeResults_frame
    intro r hr
    have hb := batchResults_mem_bounds _ _ _ _ _ _ _ r hr
    omega

theorem doBatch_inv_mem (ctx : LoopCtx) (sch : IterSched) (i : Nat)
    (s : RunState) (j t : Nat) (h : j < i ∨ ctx.effectiveTotal ≤ j) :
    ((j, t) ∈ (doBatch ctx sch i s).invocations ↔
      (j, t) ∈ s.invocations) := by
  rw [doBatch_invocations]
  simp only [List.mem_append]
  constructor
  · rintro (hm | hm)
    · exact hm
    · exfalso
      rw [List.mem_map] at hm
      obtain ⟨r, hr, he⟩ := hm
      have hb := batchResults_mem_bounds _ _ _ _ _ _ _ r hr
      have hj : r.1 = j := by
        have := congrArg Prod.fst he
        simpa using this
      omega
  · intro hm
    exact Or.inl hm

/-! ### Helper lemmas: the loop never touches rows outside its range -/

theorem runLoop_frame (ctx : LoopCtx) (fuel : Nat) :
    ∀ (iter i : Nat) (s : RunState) (j : Nat),
      (j < i ∨ ctx.effectiveTotal ≤ j) →
      nthRow (stateOf (runLoop ctx fuel iter i s)).data j = nthRow s.data j ∧
      (∀ t : Nat, ((j, t) ∈ (stateOf (runLoop ctx fuel iter i s)).invocations ↔
        (j, t) ∈ s.invocations)) := by
  induction fuel with
  | zero => intro iter i s j h; simp [runLoop, stateOf]
  | succ fuel ih =>
    intro iter i s j h
    simp only [runLoop]
    by_cases hi : i < ctx.effectiveTotal
    case neg => rw [if_neg hi]; simp [stateOf]
    rw [if_pos hi]
    by_cases hc : s.isCancelled
    case pos => rw [if_pos hc]; simp [stateOf]
    rw [if_neg hc]
    by_cases hp : s.isPaused
    case neg =>
      rw [if_neg hp]
      have hj2 : j < i + ctx.BATCH ∨ ctx.effectiveTotal ≤ j := by omega
      obtain ⟨ihd, ihi⟩ := ih (iter + 1) (i + ctx.BATCH)
        (doBatch ctx (ctx.sched iter) i s) j hj2
      constructor
      · rw [ihd, doBatch_data_frame _ _ _ _ _ (by omega)]
      · intro t
        rw [ihi t, doBatch_inv_mem _ _ _ _ _ _ h]
    rw [if_pos hp]
    generalize happ : waitResume (ctx.sched iter) s = sw
    have hswd : sw.data = s.data := by rw [← happ, waitResume_data]
    have hswi : sw.invocations = s.invocations := by
      rw [← happ, waitResume_invocations]
    by_cases hrp : sw.resumePending
    case pos => rw [if_pos hrp]; simp [stateOf, hswd, hswi]
    rw [if_neg hrp]
    by_cases hc2 : sw.isCancelled
    case pos => rw [if_pos hc2]; simp [stateOf, hswd, hswi]
    rw [if_neg hc2]
    have hj2 : j < i + ctx.BATCH ∨ ctx.effectiveTotal ≤ j := by omega
    obtain ⟨ihd, ihi⟩ := ih (iter + 1) (i + ctx.BATCH)
      (doBatch ctx (ctx.sched iter) i sw) j hj2
    constructor
    · rw [ihd, doBatch_data_frame _ _ _ _ _ (by omega), hswd]
    · intro t
      rw [ihi t, doBatch_inv_mem _ _ _ _ _ _ h, hswi]

/-! ### Helper lemmas: rows with a blank subject are skipped -/

theorem entityName_blank (row : Row) (tcols : List String)
    (h : targetsBlank row tcols = true) : entityName row tcols = "" := by
  unfold entityName
  have hnil : (tcols.filterMap (fun c => rowGet row c)).filter
      (fun v => v != "" && jsTrim v != "") = [] := by
    rw [List.filter_eq_nil_iff]
    intro v hv
    rw [List.mem_filterMap] at hv
    obtain ⟨c, hc, hrc⟩ := hv
    unfold targetsBlank at h
    rw [List.all_eq_true] at h
    have hb := h c hc
    rw [hrc] at hb
    simp at hb
    simp [hb]
  rw [hnil]
  rfl

theorem rowInvocations_blank (invoke : Invoke) (tcols : List String)
    (tasks : List ResearchTask) (u : Bool) (j : Nat) (row : Row)
    (h : entityName row tcols = "") :
    rowInvocations invoke tcols tasks u j row = [] := by
  unfold rowInvocations
  simp [h]

theorem batchResults_mem_row (invoke : Invoke) (tcols : List String)
    (tasks : List ResearchTask) (u : Bool) (data : List Row) (i be : Nat)
    (r : Nat × Nat × ResearchResult)
    (hr : r ∈ batchResults invoke tcols tasks u data i be) :
    r ∈ rowInvocations invoke tcols tasks u r.1 (data.getD r.1 []) := by
  unfold batchResults at hr
  rw [List.mem_flatMap] at hr
  obtain ⟨j, _, hrj⟩ := hr
  have hfst := rowInvocations_mem_fst invoke tcols tasks u j (data.getD j []) r hrj
  rw [hfst]
  exact hrj

/-- No result of a batch targets a row whose subject is blank. -/
theorem batchResults_not_blank (invoke : Invoke) (tcols : List String)
    (tasks : List ResearchTask) (u : Bool) (data : List Row) (i be : Nat)
    (j : Nat) (hblank : targetsBlank (nthRow data j) tcols = true)
    (r : Nat × Nat × ResearchResult)
    (hr : r ∈ batchResults invoke tcols tasks u data i be) : r.1 ≠ j := by
  intro hj
  have hrow := batchResults_mem_row invoke tcols tasks u data i be r hr
  rw [hj] at hrow
  rw [rowInvocations_blank invoke tcols tasks u j (data.getD j [])
    (entityName_blank _ _ hblank)] at hrow
  simp at hrow

theorem doBatch_data_skip (ctx : LoopCtx) (sch : IterSched) (i : Nat)
    (s : RunState) (j : Nat)
    (hblank : targetsBlank (nthRow s.data j) ctx.targetColumns = true) :
    nthRow (doBatch ctx sch i s).data j = nthRow s.data j := by
  rw [doBatch_data]
  split
  · rfl
  · exact mergeResults_frame _ _ _ _
      (fun r hr => batchResults_not_blank _ _ _ _ _ _ _ j hblank r hr)

theorem doBatch_inv_skip (ctx : LoopCtx) (sch : IterSched) (i : Nat)
    (s : RunState) (j t : Nat)
    (hblank : targetsBlank (nthRow s.data j) ctx.targetColumns = true) :
    ((j, t) ∈ (doBatch ctx sch i s).invocations ↔
      (j, t) ∈ s.invocations) := by
  rw [doBatch_invocations]
  simp only [List.mem_append]
  constructor
  · rintro (hm | hm)
    · exact hm
    · exfalso
      rw [List.mem_map] at hm
      obtain ⟨r, hr, he⟩ := hm
      have hj : r.1 = j := by
        have := congrArg Prod.fst he
        simpa using this
      exact batchResults_not_blank _ _ _ _ _ _ _ j hblank r hr hj
  · intro hm
    exact Or.inl hm

/-- A row whose subject resolves blank is never written and never fires an
invocation, from any point of the run onward. -/
theorem runLoop_skip (ctx : LoopCtx) (fuel : Nat) :
    ∀ (iter i : Nat) (s : RunState) (j : Nat),
      targetsBlank (nthRow s.data j) ctx.targetColumns = true →
      nthRow (stateOf (runLoop ctx fuel iter i s)).data j = nthRow s.data j ∧
      (∀ t : Nat, ((j, t) ∈ (stateOf (runLoop ctx fuel iter i s)).invocations ↔
        (j, t) ∈ s.invocations)) := by
  induction fuel with
  | zero => intro iter i s j hblank; simp [runLoop, stateOf]
  | succ fuel ih =>
    intro iter i s j hblank
    simp only [runLoop]
    by_cases hi : i < ctx.effectiveTotal
    case neg => rw [if_neg hi]; simp [stateOf]
    rw [if_pos hi]
    by_cases hc : s.isCancelled
    case pos => rw [if_pos hc]; simp [stateOf]
    rw [if_neg hc]
    by_cases hp : s.isPaused
    case neg =>
      rw [if_neg hp]
      have hblank2 : targetsBlank
          (nthRow (doBatch ctx (ctx.sched iter) i s).data j)
          ctx.targetColumns = true := by
        rw [doBatch_data_skip _ _ _ _ _ hblank]; exact hblank
      obtain ⟨ihd, ihi⟩ := ih (iter + 1) (i + ctx.BATCH)
        (doBatch ctx (ctx.sched iter) i s) j hblank2
      constructor
      · rw [ihd, doBatch_data_skip _ _ _ _ _ hblank]
      · intro t
        rw [ihi t, doBatch_inv_skip _ _ _ _ _ _ hblank]
    rw [if_pos hp]
    generalize happ : waitResume (ctx.sched iter) s = sw
    have hswd : sw.data = s.data := by rw [← happ, waitResume_data]
    have hswi : sw.invocations = s.invocations := by
      rw [← happ, waitResume_invocations]
    have hblanksw : targetsBlank (nthRow sw.data j) ctx.targetColumns = true := by
      rw [hswd]; exact hblank
    by_cases hrp : sw.resumePending
    case pos => rw [if_pos hrp]; simp [stateOf, hswd, hswi]
    rw [if_neg hrp]
    by_cases hc2 : sw.isCancelled
    case pos => rw [if_pos hc2]; simp [stateOf, hswd, hswi]
    rw [if_neg hc2]
    have hblank2 : targetsBlank
        (nthRow (doBatch ctx (ctx.sched iter) i sw).data j)
        ctx.targetColumns = true := by
      rw [doBatch_data_skip _ _ _ _ _ hblanksw]; exact hblanksw
    obtain ⟨ihd, ihi⟩ := ih (iter + 1) (i + ctx.BATCH)
      (doBatch ctx (ctx.sched iter) i sw) j hblank2
    constructor
    · rw [ihd, doBatch_data_skip _ _ _ _ _ hblanksw, hswd]
    · intro t
      rw [ihi t, doBatch_inv_skip _ _ _ _ _ _ hblanksw, hswi]

/-! ### Helper lemmas: the result payloads never steer the loop

To show the control flow is independent of the invoker's answers we compare
a run against the same run with a different invoker, relating the two
states by: identical in every field except possibly the table. -/

@[simp] theorem resData_data (s : RunState) (d : List Row) :
    (resData s d).data = d := rfl

@[simp] theorem resData_status (s : RunState) (d : List Row) :
    (resData s d).status = s.status := rfl

@[simp] theorem resData_processedCount (s : RunState) (d : List Row) :
    (resData s d).processedCount = s.processedCount := rfl

@[simp] theorem resData_isPaused (s : RunState) (d : List Row) :
    (resData s d).isPaused = s.isPaused := rfl

@[simp] theorem resData_isCancelled (s : RunState) (d : List Row) :
    (resData s d).isCancelled = s.isCancelled := rfl

@[simp] theorem resData_resumePending (s : RunState) (d : List Row) :
    (resData s d).resumePending = s.resumePending := rfl

@[simp] theorem resData_invocations (s : RunState) (d : List Row) :
    (resData s d).invocations = s.invocations := rfl

@[simp] theorem resData_columns (s : RunState) (d : List Row) :
    (resData s d).columns = s.columns := rfl

theorem ctl_resData (s : RunState) (d : List Row) :
    ctl (resData s d) = ctl s := rfl

theorem applyEvent_resData (s : RunState) (d : List Row) (e : Event) :
    applyEvent (resData s d) e = resData (applyEvent s e) d := by
  cases e <;> rfl

theorem applyEvents_resData (es : List Event) (s : RunState) (d : List Row) :
    applyEvents es (resData s d) = resData (applyEvents es s) d := by
  induction es generalizing s with
  | nil => rfl
  | cons e es ih =>
    simp only [applyEvents, List.foldl] at ih ⊢
    rw [applyEvent_resData, ih]

theorem waitResume_resData (sch : IterSched) (s : RunState) (d : List Row) :
    waitResume sch (resData s d) = resData (waitResume sch s) d := by
  unfold waitResume
  rw [← applyEvents_resData]
  rfl

theorem isEmpty_eq_of_length_eq {α β : Type} (l₁ : List α) (l₂ : List β)
    (h : l₁.length = l₂.length) : l₁.isEmpty = l₂.isEmpty := by
  cases l₁ <;> cases l₂ <;> simp_all

/-- The (rowIndex, taskIndex) tags of a row's invocations do not depend on
the invoker. -/
theorem rowInvocations_tags (f g : Invoke) (tcols : List String)
    (tasks : List ResearchTask) (u : Bool) (j : Nat) (row : Row) :
    (rowInvocations f tcols tasks u j row).map (fun r => (r.1, r.2.1)) =
      (rowInvocations g tcols tasks u j row).map (fun r => (r.1, r.2.1)) := by
  unfold rowInvocations
  by_cases he : entityName row tcols = "" <;>
    simp [he, List.map_map, Function.comp]

/-- The tags of a whole batch depend only on the rows in the batch's range,
not on the invoker. -/
theorem batchResults_tags (f g : Invoke) (tcols : List String)
    (tasks : List ResearchTask) (u : Bool) (d₁ d₂ : List Row) (i be : Nat)
    (hag : ∀ j, i ≤ j → j < be → nthRow d₁ j = nthRow d₂ j) :
    (batchResults f tcols tasks u d₁ i be).map (fun r => (r.1, r.2.1)) =
      (batchResults g tcols tasks u d₂ i be).map (fun r => (r.1, r.2.1)) := by
  unfold batchResults
  have key : ∀ (js : List Nat), (∀ j ∈ js, nthRow d₁ j = nthRow d₂ j) →
      ((js.flatMap (fun j =>
          rowInvocations f tcols tasks u j (d₁.getD j []))).map
        (fun r => (r.1, r.2.1))) =
      ((js.flatMap (fun j =>
          rowInvocations g tcols tasks u j (d₂.getD j []))).map
        (fun r => (r.1, r.2.1))) := by
    intro js
    induction js with
    | nil => intro _; rfl
    | cons j t ih =>
      intro hj
      simp only [List.flatMap_cons, List.map_append]
      have hrow : d₁.getD j [] = d₂.getD j [] :=
        hj j (List.mem_cons_self j t)
      rw [hrow, rowInvocations_tags f g,
        ih (fun q hq => hj q (List.mem_cons_of_mem j hq))]
  apply key
  intro j hj
  rw [List.mem_range'_1] at hj
  exact hag j hj.1 (by omega)

/-- Two states that agree field by field are equal. -/
theorem runState_ext (s t : RunState) (h1 : s.data = t.data)
    (h2 : s.columns = t.columns) (h3 : s.status = t.status)
    (h4 : s.processedCount = t.processedCount) (h5 : s.isPaused = t.isPaused)
    (h6 : s.isCancelled = t.isCancelled)
    (h7 : s.resumePending = t.resumePending)
    (h8 : s.invocations = t.invocations) : s = t := by
  cases s; cases t; simp_all

theorem flags_applyEvent (s : RunState) (e : Event) :
    flags (applyEvent s e) = stepFlag (flags s) e := by
  cases e <;> rfl

theorem flags_applyEvents (es : List Event) (s : RunState) :
    flags (applyEvents es s) = es.foldl stepFlag (flags s) := by
  induction es generalizing s with
  | nil => rfl
  | cons e es ih =>
    simp only [applyEvents, List.foldl] at ih ⊢
    rw [ih, flags_applyEvent]

theorem applyEvents_status (es : List Event) (s : RunState) :
    (applyEvents es s).status = (es.foldl stepFlag (flags s)).1 := by
  have h : (applyEvents es s).status = (flags (applyEvents es s)).1 := rfl
  rw [h, flags_applyEvents]

theorem applyEvents_isPaused (es : List Event) (s : RunState) :
    (applyEvents es s).isPaused = (es.foldl stepFlag (flags s)).2.1 := by
  have h : (applyEvents es s).isPaused = (flags (applyEvents es s)).2.1 := rfl
  rw [h, flags_applyEvents]

theorem applyEvents_isCancelled (es : List Event) (s : RunState) :
    (applyEvents es s).isCancelled = (es.foldl stepFlag (flags s)).2.2.1 := by
  have h : (applyEvents es s).isCancelled =
    (flags (applyEvents es s)).2.2.1 := rfl
  rw [h, flags_applyEvents]

theorem applyEvents_resumePending (es : List Event) (s : RunState) :
    (applyEvents es s).resumePending = (es.foldl stepFlag (flags s)).2.2.2 := by
  have h : (applyEvents es s).resumePending =
    (flags (applyEvents es s)).2.2.2 := rfl
  rw [h, flags_applyEvents]

theorem doBatch_processedCount (ctx : LoopCtx) (sch : IterSched) (i : Nat)
    (s : RunState) :
    (doBatch ctx sch i s).processedCount =
      min (i + ctx.BATCH) ctx.effectiveTotal := by
  by_cases h1 : (batchResults ctx.invoke ctx.targetColumns ctx.tasks
      ctx.useThinkingModel s.data i
      (min (i + ctx.BATCH) ctx.effectiveTotal)).isEmpty <;>
  by_cases h2 : min (i + ctx.BATCH) ctx.effectiveTotal < ctx.effectiveTotal <;>
  simp [doBatch, h1, h2, applyEvents_processedCount]

/-- The flags after the batch body, as a pure function of the flags before,
the schedule, and whether the batch was empty. -/
theorem doBatch_flags (ctx : LoopCtx) (sch : IterSched) (i : Nat)
    (s : RunState) :
    flags (doBatch ctx sch i s) =
      (let f2 := if (batchResults ctx.invoke ctx.targetColumns ctx.tasks
            ctx.useThinkingModel s.data i
            (min (i + ctx.BATCH) ctx.effectiveTotal)).isEmpty
          then flags s else sch.batchEvents.foldl stepFlag (flags s)
       if min (i + ctx.BATCH) ctx.effectiveTotal < ctx.effectiveTotal
       then sch.sleepEvents.foldl stepFlag f2 else f2) := by
  by_cases h1 : (batchResults ctx.invoke ctx.targetColumns ctx.tasks
      ctx.useThinkingModel s.data i
      (min (i + ctx.BATCH) ctx.effectiveTotal)).isEmpty <;>
  by_cases h2 : min (i + ctx.BATCH) ctx.effectiveTotal < ctx.effectiveTotal <;>
  simp [doBatch, h1, h2, applyEvents_status, applyEvents_isPaused,
    applyEvents_isCancelled, applyEvents_resumePending, flags]

/-- Running the batch body under a different invoker, from a state equal in
everything but the table, lands in a state equal in everything but the
table — provided the two tables produce the same invocation tags. -/
theorem doBatch_resData (ctx : LoopCtx) (g : Invoke) (sch : IterSched)
    (i : Nat) (s : RunState) (d : List Row)
    (htags : (batchResults ctx.invoke ctx.targetColumns ctx.tasks
        ctx.useThinkingModel s.data i (min (i + ctx.BATCH) ctx.effectiveTotal)).map
        (fun r => (r.1, r.2.1)) =
      (batchResults g ctx.targetColumns ctx.tasks ctx.useThinkingModel d i
        (min (i + ctx.BATCH) ctx.effectiveTotal)).map (fun r => (r.1, r.2.1))) :
    doBatch { ctx with invoke := g } sch i (resData s d) =
      resData (doBatch ctx sch i s)
        (doBatch { ctx with invoke := g } sch i (resData s d)).data := by
  have hemp : (batchResults g ctx.targetColumns ctx.tasks ctx.useThinkingModel
        d i (min (i + ctx.BATCH) ctx.effectiveTotal)).isEmpty =
      (batchResults ctx.invoke ctx.targetColumns ctx.tasks ctx.useThinkingModel
        s.data i (min (i + ctx.BATCH) ctx.effectiveTotal)).isEmpty := by
    apply isEmpty_eq_of_length_eq
    have := congrArg List.length htags
    simp only [List.length_map] at this
    omega
  have hflags : flags (doBatch { ctx with invoke := g } sch i (resData s d)) =
      flags (doBatch ctx sch i s) := by
    rw [doBatch_flags, doBatch_flags]
    simp only [resData_data]
    have hB : ({ ctx with invoke := g } : LoopCtx).BATCH = ctx.BATCH := rfl
    have hE : ({ ctx with invoke := g } : LoopCtx).effectiveTotal =
      ctx.effectiveTotal := rfl
    rw [hB, hE]
    have hfl : flags (resData s d) = flags s := rfl
    rw [hfl]
    have hsched : ({ ctx with invoke := g } : LoopCtx).targetColumns =
      ctx.targetColumns := rfl
    rw [hsched]
    have htk : ({ ctx with invoke := g } : LoopCtx).tasks = ctx.tasks := rfl
    rw [htk]
    have hu : ({ ctx with invoke := g } : LoopCtx).useThinkingModel =
      ctx.useThinkingModel := rfl
    rw [hu]
    simp only [hemp]
  have hfe := congrArg Prod.fst hflags
  have hf2 := congrArg (fun p => p.2.1) hflags
  have hf3 := congrArg (fun p => p.2.2.1) hflags
  have hf4 := congrArg (fun p => p.2.2.2) hflags
  simp only [flags] at hfe hf2 hf3 hf4
  apply runState_ext
  · rfl
  · rw [resData_columns, doBatch_columns, doBatch_columns, resData_columns]
  · rw [resData_status]; exact hfe
  · rw [resData_processedCount, doBatch_processedCount,
      doBatch_processedCount]
  · rw [resData_isPaused]; exact hf2
  · rw [resData_isCancelled]; exact hf3
  · rw [resData_resumePending]; exact hf4
  · rw [resData_invocations, doBatch_invocations, doBatch_invocations,
      resData_invocations, resData_data]
    have hsched : ({ ctx with invoke := g } : LoopCtx).targetColumns =
      ctx.targetColumns := rfl
    have htk : ({ ctx with invoke := g } : LoopCtx).tasks = ctx.tasks := rfl
    have hu : ({ ctx with invoke := g } : LoopCtx).useThinkingModel =
      ctx.useThinkingModel := rfl
    have hB : ({ ctx with invoke := g } : LoopCtx).BATCH = ctx.BATCH := rfl
    have hE : ({ ctx with invoke := g } : LoopCtx).effectiveTotal =
      ctx.effectiveTotal := rfl
    have hinv : ({ ctx with invoke := g } : LoopCtx).invoke = g := rfl
    rw [hsched, htk, hu, hB, hE, hinv, ← htags]

theorem control_mapOutcomeData (out : RunOutcome) (d : List Row) :
    control (mapOutcomeData out d) = control out := by
  cases out <;> rfl

/-- Changing the invoker changes at most the table contents of the run: from
states that agree outside the table and whose tables agree on the rows still
to be processed, the two runs stay in lock step, and the final outcomes
differ at most in the table. -/
theorem runLoop_resData (ctx : LoopCtx) (g : Invoke) (fuel : Nat) :
    ∀ (iter i : Nat) (s : RunState) (d : List Row),
      (∀ j, i ≤ j → j < ctx.effectiveTotal → nthRow s.data j = nthRow d j) →
      ∃ d2, runLoop { ctx with invoke := g } fuel iter i (resData s d) =
        mapOutcomeData (runLoop ctx fuel iter i s) d2 := by
  induction fuel with
  | zero => intro iter i s d hag; exact ⟨d, rfl⟩
  | succ fuel ih =>
    intro iter i s d hag
    simp only [runLoop]
    by_cases hi : i < ctx.effectiveTotal
    case neg =>
      rw [if_neg hi, if_neg hi]
      exact ⟨d, rfl⟩
    rw [if_pos hi, if_pos hi]
    simp only [resData_isCancelled, resData_isPaused]
    by_cases hc : s.isCancelled
    case pos =>
      rw [if_pos hc, if_pos hc]
      exact ⟨d, rfl⟩
    rw [if_neg hc, if_neg hc]
    by_cases hp : s.isPaused
    case neg =>
      rw [if_neg hp, if_neg hp]
      have htags : (batchResults ctx.invoke ctx.targetColumns ctx.tasks
          ctx.useThinkingModel s.data i
          (min (i + ctx.BATCH) ctx.effectiveTotal)).map
          (fun r => (r.1, r.2.1)) =
        (batchResults g ctx.targetColumns ctx.tasks ctx.useThinkingModel d i
          (min (i + ctx.BATCH) ctx.effectiveTotal)).map
          (fun r => (r.1, r.2.1)) := by
        apply batchResults_tags
        intro j hj1 hj2
        exact hag j hj1 (by omega)
      rw [doBatch_resData ctx g (ctx.sched iter) i s d htags]
      apply ih
      intro j hj1 hj2
      have hcondL : j < i ∨ min (i + ctx.BATCH) ctx.effectiveTotal ≤ j := by
        omega
      have hL : nthRow (doBatch ctx (ctx.sched iter) i s).data j =
          nthRow s.data j :=
        doBatch_data_frame ctx (ctx.sched iter) i s j hcondL
      have hR : nthRow (doBatch { ctx with invoke := g } (ctx.sched iter) i
          (resData s d)).data j = nthRow d j := by
        have hfr := doBatch_data_frame { ctx with invoke := g } (ctx.sched iter)
          i (resData s d) j hcondL
        rw [hfr, resData_data]
      rw [hL, hR, hag j (by omega) hj2]
    rw [if_pos hp, if_pos hp]
    rw [waitResume_resData]
    simp only [resData_resumePending, resData_isCancelled]
    by_cases hrp : (waitResume (ctx.sched iter) s).resumePending
    case pos =>
      rw [if_pos hrp, if_pos hrp]
      exact ⟨d, rfl⟩
    rw [if_neg hrp, if_neg hrp]
    by_cases hc2 : (waitResume (ctx.sched iter) s).isCancelled
    case pos =>
      rw [if_pos hc2, if_pos hc2]
      exact ⟨d, rfl⟩
    rw [if_neg hc2, if_neg hc2]
    have hswd : (waitResume (ctx.sched iter) s).data = s.data :=
      waitResume_data _ _
    have htags : (batchResults ctx.invoke ctx.targetColumns ctx.tasks
        ctx.useThinkingModel (waitResume (ctx.sched iter) s).data i
        (min (i + ctx.BATCH) ctx.effectiveTotal)).map
        (fun r => (r.1, r.2.1)) =
      (batchResults g ctx.targetColumns ctx.tasks ctx.useThinkingModel d i
        (min (i + ctx.BATCH) ctx.effectiveTotal)).map
        (fun r => (r.1, r.2.1)) := by
      apply batchResults_tags
      intro j hj1 hj2
      rw [hswd]
      exact hag j hj1 (by omega)
    rw [doBatch_resData ctx g (ctx.sched iter) i _ d htags]
    apply ih
    intro j hj1 hj2
    have hcondL : j < i ∨ min (i + ctx.BATCH) ctx.effectiveTotal ≤ j := by
      omega
    have hL : nthRow (doBatch ctx (ctx.sched iter) i
        (waitResume (ctx.sched iter) s)).data j = nthRow s.data j := by
      rw [doBatch_data_frame ctx (ctx.sched iter) i _ j hcondL, hswd]
    have hR : nthRow (doBatch { ctx with invoke := g } (ctx.sched iter) i
        (resData (waitResume (ctx.sched iter) s) d)).data j = nthRow d j := by
      have hfr := doBatch_data_frame { ctx with invoke := g } (ctx.sched iter)
        i (resData (waitResume (ctx.sched iter) s) d) j hcondL
      rw [hfr, resData_data]
    rw [hL, hR, hag j (by omega) hj2]

/-! ### Helper lemmas: the entity resolver -/

theorem jsTrim_empty : jsTrim "" = "" := rfl

/-- The subject the code computes, re-expressed as a single filterMap
keeping untrimmed values whose trim is non-empty. -/
theorem entityName_eq_subjectResolved (row : Row) (cols : List String) :
    entityName row cols = subjectResolved row cols := by
  unfold entityName subjectResolved
  congr 1
  induction cols with
  | nil => rfl
  | cons c t ih =>
    simp only [List.filterMap_cons]
    cases hc : rowGet row c with
    | none => simpa using ih
    | some v =>
      by_cases hv : jsTrim v = ""
      · simp [hv, ih]
      · have hv0 : v ≠ "" := by
          intro h0
          rw [h0, jsTrim_empty] at hv
          exact hv rfl
        simp [hv, hv0, ih]

/-- A column missing from the row contributes to the subject exactly as an
empty value would: adding it with the empty value changes nothing. -/
theorem entityName_missing_as_empty (row : Row) (cols : List String)
    (c : String) (h : rowGet row c = none) :
    entityName (row ++ [(c, "")]) cols = entityName row cols := by
  unfold entityName
  congr 1
  induction cols with
  | nil => rfl
  | cons c0 t ih =>
    simp only [List.filterMap_cons]
    by_cases hc : c0 = c
    · subst hc
      have happ : rowGet (row ++ [(c0, "")]) c0 = some "" := by
        rw [rowGet_append, h]
        simp [rowGet]
      rw [happ, h]
      simp [ih]
    · have happ : rowGet (row ++ [(c, "")]) c0 = rowGet row c0 := by
        rw [rowGet_append]
        cases hx : rowGet row c0 with
        | some v => rfl
        | none => simp [rowGet, Ne.symm hc]
      rw [happ]
      cases hx : rowGet row c0 with
      | none => simpa using ih
      | some v => simp only [List.filter_cons, ih]

/-- Every fragment of the context string comes from a key/value pair that is
actually present in the row. -/
theorem contextParts_from_row (row : Row) (tcols : List String)
    (tasks : List ResearchTask) (s : String)
    (hs : s ∈ contextParts row tcols tasks) :
    ∃ kv, kv ∈ row ∧ s = kv.1 ++ ": " ++ kv.2 := by
  unfold contextParts at hs
  rw [List.mem_map] at hs
  obtain ⟨p, hp, hps⟩ := hs
  exact ⟨p, (List.mem_filter.mp hp).1, hps.symm⟩

/-! ### Helper lemmas: cancellation checks and run control -/

/-- A loop iteration that starts with the cancelled flag set returns at once
with the state untouched. -/
theorem runLoop_cancelled_exit (ctx : LoopCtx) (fuel iter i : Nat)
    (s : RunState) (hfuel : 0 < fuel) (hi : i < ctx.effectiveTotal)
    (hc : s.isCancelled = true) :
    runLoop ctx fuel iter i s = RunOutcome.finished s := by
  cases fuel with
  | zero => omega
  | succ fuel =>
    simp only [runLoop]
    rw [if_pos hi, if_pos hc]

/-- The loop never changes the column list. -/
theorem runLoop_columns (ctx : LoopCtx) (fuel : Nat) :
    ∀ (iter i : Nat) (s : RunState),
      (stateOf (runLoop ctx fuel iter i s)).columns = s.columns := by
  induction fuel with
  | zero => intro iter i s; simp [runLoop, stateOf]
  | succ fuel ih =>
    intro iter i s
    simp only [runLoop]
    by_cases hi : i < ctx.effectiveTotal
    case neg => rw [if_neg hi]; simp [stateOf]
    rw [if_pos hi]
    by_cases hc : s.isCancelled
    case pos => rw [if_pos hc]; simp [stateOf]
    rw [if_neg hc]
    by_cases hp : s.isPaused
    case neg =>
      rw [if_neg hp]
      rw [ih, doBatch_columns]
    rw [if_pos hp]
    generalize happ : waitResume (ctx.sched iter) s = sw
    have hswc : sw.columns = s.columns := by rw [← happ, waitResume_columns]
    by_cases hrp : sw.resumePending
    case pos => rw [if_pos hrp]; simpa [stateOf] using hswc
    rw [if_neg hrp]
    by_cases hc2 : sw.isCancelled
    case pos => rw [if_pos hc2]; simpa [stateOf] using hswc
    rw [if_neg hc2]
    rw [ih, doBatch_columns, hswc]

/-! ### Claims -/

/-- C1, counterexample: the claim says each target-column value is trimmed
before joining, but the code joins the raw values: on the row with Name
equal to a space-padded Acme the code's subject keeps the padding while the
claimed subject does not. -/
theorem C1_counterexample :
    entityName [("Name", " Acme ")] ["Name"] = " Acme " ∧
    subjectSpecTrimmed [("Name", " Acme ")] ["Name"] = "Acme" ∧
    entityName [("Name", " Acme ")] ["Name"] ≠
      subjectSpecTrimmed [("Name", " Acme ")] ["Name"] := by
  decide

/-- C1 (amended): for every row and configuration the resolved subject
equals the values of the target columns read from the row, kept when their
trimmed form is non-empty (missing and whitespace-only values drop out), and
the surviving raw, untrimmed values joined with a single space in
targetColumns order. -/
theorem C1_subject_resolution (row : Row) (targetColumns : List String) :
    entityName row targetColumns = subjectResolved row targetColumns :=
  entityName_eq_subjectResolved row targetColumns

/-- C7, counterexample: for a missing API credential the invoker raises
(throws) instead of returning the Error sentinel, contradicting the claim
that missing credentials are normalized like other provider failures. -/
theorem C7_counterexample :
    researchEntity "" ProviderOutcome.failure "Acme" "Find the CEO" "" false =
      Except.error
        "API Key is missing. Please configure process.env.API_KEY." := rfl

/-- C7 (amended): with a configured API key the invoker never raises: a
provider failure during the call is normalized to the Error sentinel and
every provider response yields an ok result; only the missing-credential
configuration fault, checked before the call, raises. -/
theorem C7_invoker_normalizes_failures (apiKey : String) (h : apiKey ≠ "")
    (provider : ProviderOutcome) (e q c : String) (u : Bool) :
    researchEntity apiKey ProviderOutcome.failure e q c u =
      Except.ok { text := "Error", sources := [] } ∧
    ∃ r, researchEntity apiKey provider e q c u = Except.ok r := by
  constructor
  · unfold researchEntity
    rw [if_neg h]
  · cases provider with
    | failure =>
      refine ⟨{ text := "Error", sources := [] }, ?_⟩
      unfold researchEntity
      rw [if_neg h]
    | success t chunks =>
      refine ⟨{ text := match t with
                  | none => "N/A"
                  | some s => if s = "" then "N/A" else jsTrim s,
                sources := chunks.filterMap (fun ck =>
                  ck.web.map (fun w =>
                    { title := w.title.getD "Source",
                      uri := w.uri.getD "" })) }, ?_⟩
      unfold researchEntity
      rw [if_neg h]

/-- C7 witness: the theorem at a concrete configured key and a failing
provider. -/
theorem C7_invoker_normalizes_failures_witness :
    researchEntity "key" ProviderOutcome.failure "Acme" "q" "c" false =
      Except.ok { text := "Error", sources := [] } ∧
    ∃ r, researchEntity "key" ProviderOutcome.failure "Acme" "q" "c" false =
      Except.ok r :=
  C7_invoker_normalizes_failures "key" (by decide) ProviderOutcome.failure
    "Acme" "q" "c" false

/-- C8: for every tasksPerRow at least one and either thinking-model flag,
the planned batch size is max(1, floor(budget / tasksPerRow)) with budget 2
when the flag is set and 10 otherwise; in particular three tasks on the fast
model give batches of three rows and five tasks on the thinking model give
batches of one row. -/
theorem C8_batch_size (t : Nat) (u : Bool) (h : 1 ≤ t) :
    batchSize t u = max 1 ((if u then 2 else 10) / t) ∧
    batchSize 3 false = 3 ∧ batchSize 5 true = 1 := by
  refine ⟨?_, by decide, by decide⟩
  unfold batchSize concurrentLimit
  cases u <;> rfl

/-- C8 witness: the theorem at tasksPerRow three on the fast model. -/
theorem C8_batch_size_witness :
    batchSize 3 false = max 1 ((if false then 2 else 10) / 3) ∧
    batchSize 3 false = 3 ∧ batchSize 5 true = 1 :=
  C8_batch_size 3 false (by decide)

/-- C10: entity resolution is total on rows with missing keys: a target
column absent from the row behaves exactly like one holding the empty
string (it is excluded from the subject), and every fragment of the context
comes from a key/value pair actually present in the row. -/
theorem C10_resolution_total (row : Row) (cols : List String) (c : String)
    (tcols : List String) (tasks : List ResearchTask)
    (h : rowGet row c = none) :
    entityName (row ++ [(c, "")]) cols = entityName row cols ∧
    ∀ s ∈ contextParts row tcols tasks,
      ∃ kv, kv ∈ row ∧ s = kv.1 ++ ": " ++ kv.2 :=
  ⟨entityName_missing_as_empty row cols c h,
    fun s hs => contextParts_from_row row tcols tasks s hs⟩

/-- C10 witness: the theorem on a row lacking the configured column
Missing. -/
theorem C10_resolution_total_witness :
    entityName ([("Name", "Acme")] ++ [("Missing", "")]) ["Name", "Missing"] =
      entityName [("Name", "Acme")] ["Name", "Missing"] ∧
    ∀ s ∈ contextParts [("Name", "Acme")] ["Missing"]
        [{ id := "1", newColumnName := "Info", prompt := "p" }],
      ∃ kv, kv ∈ ([("Name", "Acme")] : Row) ∧ s = kv.1 ++ ": " ++ kv.2 :=
  C10_resolution_total [("Name", "Acme")] ["Name", "Missing"] "Missing"
    ["Missing"] [{ id := "1", newColumnName := "Info", prompt := "p" }]
    (by decide)

/-- C2, counterexample: cancel issued while the final batch is in flight is
overwritten: the run finishes with the cancelled flag set yet status
Completed, not the Idle that cancel installed — refuting the claim for that
cancellation point. -/
theorem C2_counterexample :
    (ranState (startResearch [[("Name", "A")]] ["Name"]
      ProcessingStatus.IDLE cfgOneTask sampleInvoke schedCancelInBatch)).map
      (fun s => (s.isCancelled, s.status)) =
      some (true, ProcessingStatus.COMPLETED) := by
  decide

/-- C2 (amended): after cancel() is issued, the run state is never set to
Completed provided the loop performs a further cancellation check — at the
check before a batch starts the loop returns at once with the state exactly
as cancel() left it (Idle); but when cancel() arrives while the final batch
is in flight no further check follows and the loop still sets Completed. -/
theorem C2_cancel_check_exits (ctx : LoopCtx) (fuel iter i : Nat)
    (s : RunState) (hfuel : 0 < fuel) (hi : i < ctx.effectiveTotal)
    (hc : s.isCancelled = true) :
    runLoop ctx fuel iter i s = RunOutcome.finished s :=
  runLoop_cancelled_exit ctx fuel iter i s hfuel hi hc

/-- C2 witness: the theorem at a concrete cancelled state. -/
theorem C2_cancel_check_exits_witness :
    runLoop
      { invoke := sampleInvoke, targetColumns := ["Name"],
        tasks := [], useThinkingModel := false, effectiveTotal := 1,
        BATCH := 1, sched := schedQuiet } 1 0 0
      { data := [[("Name", "A")]], columns := ["Name"],
        status := ProcessingStatus.IDLE, processedCount := 0,
        isPaused := false, isCancelled := true, resumePending := false,
        invocations := [] } =
      RunOutcome.finished
        { data := [[("Name", "A")]], columns := ["Name"],
          status := ProcessingStatus.IDLE, processedCount := 0,
          isPaused := false, isCancelled := true, resumePending := false,
          invocations := [] } :=
  C2_cancel_check_exits _ 1 0 0 _ (by decide) (by decide) (by decide)

/-- C3, counterexample: starting while the state is Processing is not
rejected: the run proceeds, writes the table, advances the counter to one
and ends Completed — not a no-op. -/
theorem C3_counterexample :
    (ranState (startResearch [[("Name", "A")]] ["Name"]
      ProcessingStatus.PROCESSING cfgOneTask sampleInvoke schedQuiet)).map
      (fun s => (s.processedCount, s.status, rowGet (nthRow s.data 0) "Info")) =
      some (1, ProcessingStatus.COMPLETED, some "X") := by
  decide

/-- C3 (amended): the core does not reject a start while Processing or
Paused: the start operation ignores the current run state entirely (its
result is the same for every incoming status), and its only guard is the
empty-table early return; prevention is the UI's job alone. -/
theorem C3_start_ignores_status (data : List Row) (columns : List String)
    (st st2 : ProcessingStatus) (cfg : ResearchConfig) (invoke : Invoke)
    (sched : Nat → IterSched) (h : data ≠ []) :
    startResearch data columns st cfg invoke sched =
      startResearch data columns st2 cfg invoke sched ∧
    startResearch data columns st cfg invoke sched ≠ StartOutcome.noop := by
  have hlen : ¬data.length = 0 := by simpa using h
  constructor
  · rfl
  · unfold startResearch
    rw [if_neg hlen]
    intro hcon
    exact StartOutcome.noConfusion hcon

/-- C3 witness: the theorem at a concrete non-empty table, comparing a start
issued during Processing with one issued from Idle. -/
theorem C3_start_ignores_status_witness :
    startResearch [[("Name", "A")]] ["Name"] ProcessingStatus.PROCESSING
        cfgOneTask sampleInvoke schedQuiet =
      startResearch [[("Name", "A")]] ["Name"] ProcessingStatus.IDLE
        cfgOneTask sampleInvoke schedQuiet ∧
    startResearch [[("Name", "A")]] ["Name"] ProcessingStatus.PROCESSING
        cfgOneTask sampleInvoke schedQuiet ≠ StartOutcome.noop :=
  C3_start_ignores_status [[("Name", "A")]] ["Name"]
    ProcessingStatus.PROCESSING ProcessingStatus.IDLE cfgOneTask sampleInvoke
    schedQuiet (by decide)

/-- C4, counterexample: with a row limit of one and a new Info column, the
column set gains Info but the beyond-limit second row is never padded: it
has no Info key at all (and in particular not the empty string), so its key
set differs from the column set after the run. -/
theorem C4_counterexample :
    (ranState (startResearch [[("Name", "A")], [("Name", "B")]] ["Name"]
      ProcessingStatus.IDLE cfgLimitOne sampleInvoke schedQuiet)).map
      (fun s => (s.columns, rowGet (nthRow s.data 1) "Info")) =
      some (["Name", "Info"], none) := by
  decide

/-- C4 (amended): the run appends missing task output columns to the column
set but never pads rows: a row gains an output key only when a result is
written into it, and every row at or beyond the effective row count is left
exactly as it was — its key set does not grow to match the column set. -/
theorem C4_rows_not_padded (data : List Row) (columns : List String)
    (st : ProcessingStatus) (cfg : ResearchConfig) (invoke : Invoke)
    (sched : Nat → IterSched) (j : Nat)
    (hj : effectiveRowCount data.length cfg.rowLimit ≤ j) (s : RunState)
    (hs : ranState (startResearch data columns st cfg invoke sched) =
      some s) :
    nthRow s.data j = nthRow data j ∧
    s.columns = columns ++ (cfg.tasks.map (fun t => t.newColumnName)).filter
      (fun n => !(columns.contains n)) := by
  unfold startResearch at hs
  by_cases hlen : data.length = 0
  · rw [if_pos hlen] at hs
    exact absurd hs (by simp [ranState])
  · rw [if_neg hlen] at hs
    simp only [ranState, Option.some.injEq] at hs
    subst hs
    constructor
    · exact (runLoop_frame _ _ 0 0 _ j (Or.inr hj)).1
    · rw [runLoop_columns]

/-- C4 witness: the theorem at the concrete limited run, with the second row
untouched. -/
theorem C4_rows_not_padded_witness :
    nthRow
        ({ data := [[("Name", "A"), ("Info", "X")], [("Name", "B")]],
           columns := ["Name", "Info"],
           status := ProcessingStatus.COMPLETED, processedCount := 1,
           isPaused := false, isCancelled := false, resumePending := false,
           invocations := [(0, 0)] } : RunState).data 1 =
      nthRow [[("Name", "A")], [("Name", "B")]] 1 ∧
    ({ data := [[("Name", "A"), ("Info", "X")], [("Name", "B")]],
       columns := ["Name", "Info"],
       status := ProcessingStatus.COMPLETED, processedCount := 1,
       isPaused := false, isCancelled := false, resumePending := false,
       invocations := [(0, 0)] } : RunState).columns =
      ["Name"] ++ (cfgLimitOne.tasks.map (fun t => t.newColumnName)).filter
        (fun n => !(["Name"].contains n)) :=
  C4_rows_not_padded [[("Name", "A")], [("Name", "B")]] ["Name"]
    ProcessingStatus.IDLE cfgLimitOne sampleInvoke schedQuiet 1 (by decide)
    _ (by decide)

/-- C5: if the loop is suspended at the pause wait and the events delivered
there end with cancel, the loop terminates at that resume check: it returns
immediately with status Idle, and the table, the progress counter and the
set of fired invocations are all exactly as they were — no further batch is
processed, however long the pause lasted. -/
theorem C5_pause_cancel_idle (ctx : LoopCtx) (fuel iter i : Nat)
    (s : RunState) (es : List Event) (hfuel : 0 < fuel)
    (hi : i < ctx.effectiveTotal) (hc : s.isCancelled = false)
    (hp : s.isPaused = true)
    (hes : (ctx.sched iter).pauseEvents = es ++ [Event.cancel]) :
    runLoop ctx fuel iter i s =
      RunOutcome.finished (waitResume (ctx.sched iter) s) ∧
    (waitResume (ctx.sched iter) s).status = ProcessingStatus.IDLE ∧
    (waitResume (ctx.sched iter) s).data = s.data ∧
    (waitResume (ctx.sched iter) s).processedCount = s.processedCount ∧
    (waitResume (ctx.sched iter) s).invocations = s.invocations := by
  have hw : waitResume (ctx.sched iter) s =
      applyEvents (es ++ [Event.cancel]) { s with resumePending := true } := by
    unfold waitResume
    rw [hes]
  obtain ⟨f1, f2, f3, f4⟩ :=
    applyEvents_cancel_last es { s with resumePending := true }
  have hcanc : (waitResume (ctx.sched iter) s).isCancelled = true := by
    rw [hw]; exact f1
  have hidle : (waitResume (ctx.sched iter) s).status =
      ProcessingStatus.IDLE := by
    rw [hw]; exact f3
  have hrp : (waitResume (ctx.sched iter) s).resumePending = false := by
    rw [hw]; exact f4
  refine ⟨?_, hidle, waitResume_data _ _, waitResume_processedCount _ _,
    waitResume_invocations _ _⟩
  cases fuel with
  | zero => omega
  | succ fuel =>
    simp only [runLoop]
    rw [if_pos hi, if_neg (by simp [hc]), if_pos hp,
      if_neg (by simp [hrp]), if_pos hcanc]

/-- C5 witness: the theorem at a concrete paused run whose pause wait
receives exactly a cancel. -/
theorem C5_pause_cancel_idle_witness :
    runLoop
      { invoke := sampleInvoke, targetColumns := ["Name"],
        tasks := [], useThinkingModel := false, effectiveTotal := 1,
        BATCH := 1,
        sched := fun _ => { pauseEvents := [Event.cancel],
                            batchEvents := [], sleepEvents := [] } } 1 0 0
      { data := [[("Name", "A")]], columns := ["Name"],
        status := ProcessingStatus.PAUSED, processedCount := 0,
        isPaused := true, isCancelled := false, resumePending := false,
        invocations := [] } =
      RunOutcome.finished (waitResume
        ((fun _ => { pauseEvents := [Event.cancel], batchEvents := [],
                     sleepEvents := [] } : Nat → IterSched) 0)
        { data := [[("Name", "A")]], columns := ["Name"],
          status := ProcessingStatus.PAUSED, processedCount := 0,
          isPaused := true, isCancelled := false, resumePending := false,
          invocations := [] }) ∧
    (waitResume
        ((fun _ => { pauseEvents := [Event.cancel], batchEvents := [],
                     sleepEvents := [] } : Nat → IterSched) 0)
        { data := [[("Name", "A")]], columns := ["Name"],
          status := ProcessingStatus.PAUSED, processedCount := 0,
          isPaused := true, isCancelled := false, resumePending := false,
          invocations := [] }).status = ProcessingStatus.IDLE ∧
    (waitResume
        ((fun _ => { pauseEvents := [Event.cancel], batchEvents := [],
                     sleepEvents := [] } : Nat → IterSched) 0)
        { data := [[("Name", "A")]], columns := ["Name"],
          status := ProcessingStatus.PAUSED, processedCount := 0,
          isPaused := true, isCancelled := false, resumePending := false,
          invocations := [] }).data =
      ({ data := [[("Name", "A")]], columns := ["Name"],
         status := ProcessingStatus.PAUSED, processedCount := 0,
         isPaused := true, isCancelled := false, resumePending := false,
         invocations := [] } : RunState).data ∧
    (waitResume
        ((fun _ => { pauseEvents := [Event.cancel], batchEvents := [],
                     sleepEvents := [] } : Nat → IterSched) 0)
        { data := [[("Name", "A")]], columns := ["Name"],
          status := ProcessingStatus.PAUSED, processedCount := 0,
          isPaused := true, isCancelled := false, resumePending := false,
          invocations := [] }).processedCount =
      ({ data := [[("Name", "A")]], columns := ["Name"],
         status := ProcessingStatus.PAUSED, processedCount := 0,
         isPaused := true, isCancelled := false, resumePending := false,
         invocations := [] } : RunState).processedCount ∧
    (waitResume
        ((fun _ => { pauseEvents := [Event.cancel], batchEvents := [],
                     sleepEvents := [] } : Nat → IterSched) 0)
        { data := [[("Name", "A")]], columns := ["Name"],
          status := ProcessingStatus.PAUSED, processedCount := 0,
          isPaused := true, isCancelled := false, resumePending := false,
          invocations := [] }).invocations =
      ({ data := [[("Name", "A")]], columns := ["Name"],
         status := ProcessingStatus.PAUSED, processedCount := 0,
         isPaused := true, isCancelled := false, resumePending := false,
         invocations := [] } : RunState).invocations :=
  C5_pause_cancel_idle _ 1 0 0 _ [] (by decide) (by decide) (by decide)
    (by decide) (by decide)

/-- C6: partial failures in a batch are isolated.  First conjunct: whenever
a result of a batch is the only one writing its cell, merging the whole
result list writes its text into that cell, whatever the other results hold
— in particular Error sentinels elsewhere in the batch do not disturb it.
Second conjunct: the loop's entire control behaviour (outcome kind, status,
progress counter, control flags, fired invocations, columns) is identical
under any two invokers, so a batch containing sentinel results continues to
the next batch exactly like one with none. -/
theorem C6_error_isolation (tasks : List ResearchTask) (data : List Row)
    (results : List (Nat × Nat × ResearchResult)) (j t : Nat)
    (res : ResearchResult) (task : ResearchTask)
    (hmem : (j, t, res) ∈ results) (htask : tasks[t]? = some task)
    (hlen : j < data.length)
    (hsolo : ∀ r ∈ results, r ≠ (j, t, res) →
      wkey tasks r ≠ some (j, task.newColumnName)) :
    rowGet (nthRow (mergeResults tasks data results) j) task.newColumnName =
      some res.text ∧
    ∀ (ctx : LoopCtx) (g : Invoke) (fuel iter i : Nat) (s : RunState),
      control (runLoop { ctx with invoke := g } fuel iter i s) =
        control (runLoop ctx fuel iter i s) := by
  constructor
  · exact mergeResults_writes tasks results data j t res task hmem htask
      hlen hsolo
  · intro ctx g fuel iter i s
    obtain ⟨d2, hd⟩ := runLoop_resData ctx g fuel iter i s s.data
      (fun _ _ _ => rfl)
    have hres : resData s s.data = s := by cases s; rfl
    rw [hres] at hd
    rw [hd, control_mapOutcomeData]

/-- C6 witness: a batch of three invocations over two tasks where one
result is the Error sentinel; the designated normal result is still merged,
and the control behaviour of a concrete run is invoker-independent. -/
theorem C6_error_isolation_witness :
    rowGet (nthRow (mergeResults
        [{ id := "1", newColumnName := "ColA", prompt := "p" },
         { id := "2", newColumnName := "ColB", prompt := "q" }]
        [[("Name", "A")], [("Name", "B")]]
        [(0, 0, { text := "Error", sources := [] }),
         (0, 1, { text := "ok1", sources := [] }),
         (1, 0, { text := "ok2", sources := [] })]) 1) "ColA" =
      some ({ text := "ok2", sources := [] } : ResearchResult).text ∧
    control (runLoop
      { ({ invoke := sampleInvoke, targetColumns := ["Name"],
           tasks := [{ id := "1", newColumnName := "Info", prompt := "p" }],
           useThinkingModel := false, effectiveTotal := 2, BATCH := 10,
           sched := schedQuiet } : LoopCtx) with
        invoke := fun _ _ _ _ => { text := "Error", sources := [] } } 3 0 0
      { data := [[("Name", "A")], [("Name", "B")]],
        columns := ["Name", "Info"], status := ProcessingStatus.PROCESSING,
        processedCount := 0, isPaused := false, isCancelled := false,
        resumePending := false, invocations := [] }) =
      control (runLoop
      { invoke := sampleInvoke, targetColumns := ["Name"],
          tasks := [{ id := "1", newColumnName := "Info", prompt := "p" }],
          useThinkingModel := false, effectiveTotal := 2, BATCH := 10,
          sched := schedQuiet } 3 0 0
      { data := [[("Name", "A")], [("Name", "B")]],
        columns := ["Name", "Info"], status := ProcessingStatus.PROCESSING,
        processedCount := 0, isPaused := false, isCancelled := false,
        resumePending := false, invocations := [] }) :=
  ⟨(C6_error_isolation
      [{ id := "1", newColumnName := "ColA", prompt := "p" },
       { id := "2", newColumnName := "ColB", prompt := "q" }]
      [[("Name", "A")], [("Name", "B")]]
      [(0, 0, { text := "Error", sources := [] }),
       (0, 1, { text := "ok1", sources := [] }),
       (1, 0, { text := "ok2", sources := [] })] 1 0
      { text := "ok2", sources := [] }
      { id := "1", newColumnName := "ColA", prompt := "p" }
      (by decide) (by decide) (by decide) (by decide)).1,
   (C6_error_isolation
      [{ id := "1", newColumnName := "ColA", prompt := "p" },
       { id := "2", newColumnName := "ColB", prompt := "q" }]
      [[("Name", "A")], [("Name", "B")]]
      [(0, 0, { text := "Error", sources := [] }),
       (0, 1, { text := "ok1", sources := [] }),
       (1, 0, { text := "ok2", sources := [] })] 1 0
      { text := "ok2", sources := [] }
      { id := "1", newColumnName := "ColA", prompt := "p" }
      (by decide) (by decide) (by decide) (by decide)).2
     { invoke := sampleInvoke, targetColumns := ["Name"],
       tasks := [{ id := "1", newColumnName := "Info", prompt := "p" }],
       useThinkingModel := false, effectiveTotal := 2, BATCH := 10,
       sched := schedQuiet }
     (fun _ _ _ _ => { text := "Error", sources := [] }) 3 0 0
     { data := [[("Name", "A")], [("Name", "B")]],
       columns := ["Name", "Info"], status := ProcessingStatus.PROCESSING,
       processedCount := 0, isPaused := false, isCancelled := false,
       resumePending := false, invocations := [] }⟩

/-- C9: a row all of whose target-column values are absent, empty or
whitespace-only fires no invocation during the run and is left entirely
untouched by it — in particular its task output columns are unchanged. -/
theorem C9_blank_subject_skipped (data : List Row) (columns : List String)
    (st : ProcessingStatus) (cfg : ResearchConfig) (invoke : Invoke)
    (sched : Nat → IterSched) (j : Nat)
    (hblank : targetsBlank (nthRow data j) cfg.targetColumns = true)
    (s : RunState)
    (hs : ranState (startResearch data columns st cfg invoke sched) =
      some s) :
    nthRow s.data j = nthRow data j ∧ ∀ t, (j, t) ∉ s.invocations := by
  unfold startResearch at hs
  by_cases hlen : data.length = 0
  · rw [if_pos hlen] at hs
    exact absurd hs (by simp [ranState])
  · rw [if_neg hlen] at hs
    simp only [ranState, Option.some.injEq] at hs
    subst hs
    constructor
    · exact (runLoop_skip _ _ 0 0 _ j hblank).1
    · intro t hmem
      have hin := ((runLoop_skip _ _ 0 0 _ j hblank).2 t).mp hmem
      simp at hin

/-- C9 witness: the theorem at a run whose first row holds only whitespace
in its target column: the row is unchanged and fires nothing. -/
theorem C9_blank_subject_skipped_witness :
    nthRow
        ({ data := [[("Name", "  ")], [("Name", "B"), ("Info", "X")]],
           columns := ["Name", "Info"],
           status := ProcessingStatus.COMPLETED, processedCount := 2,
           isPaused := false, isCancelled := false, resumePending := false,
           invocations := [(1, 0)] } : RunState).data 0 =
      nthRow [[("Name", "  ")], [("Name", "B")]] 0 ∧
    ∀ t, (0, t) ∉
      ({ data := [[("Name", "  ")], [("Name", "B"), ("Info", "X")]],
         columns := ["Name", "Info"],
         status := ProcessingStatus.COMPLETED, processedCount := 2,
         isPaused := false, isCancelled := false, resumePending := false,
         invocations := [(1, 0)] } : RunState).invocations :=
  C9_blank_subject_skipped [[("Name", "  ")], [("Name", "B")]] ["Name"]
    ProcessingStatus.IDLE cfgOneTask sampleInvoke schedQuiet 0 (by decide)
    _ (by decide)

end Syntellix
